/-
Verification development for the stxtyper alignment-interpretation and
operon-assembly core (stxtyper.cpp).

The definitions below are a shallow embedding of the C++ source:
  * `BlastAlignment` mirrors `struct BlastAlignment` (stxtyper.cpp:85-348);
    machine integers (`size_t`) are modelled as `Nat` (the program's own qc
    invariants keep every subtraction non-wrapping, and `Nat` subtraction is
    noted wherever it occurs);
  * `double` identity/coverage values are modelled exactly as rationals
    built with `mkRat` (the C++ comparisons `a/b >= c` on small integer
    ratios are exact in this range);
  * the mutable `reported` flag is an ordinary field, and every stateful loop is
    modelled by explicit state passing (fuel-indexed loops for the
    index-based C++ `for` loops; the fuel supplied always dominates the
    loop bound, so the fuel pattern is exhaustive);
  * C++ `std::sort` comparators written with the `LESS_PART` macro compute
    the lexicographic order of the listed fields; they are embedded as
    `decide` of a lexicographic (`×ₗ`) key comparison over the same fields
    in the same sequence.
-/
import Mathlib

set_option maxRecDepth 40000

namespace Stx

/-! ## Global constants (stxtyper.cpp:74-81, 734-751) -/

/-- `constexpr size_t intergenic_max = 36` (stxtyper.cpp:78). -/
def intergenic_max : Nat := 36

/-- `constexpr size_t slack = 30` (stxtyper.cpp:79). -/
def slack : Nat := 30

/-- `const string stxS ("stx")` (stxtyper.cpp:81). -/
def stxS : String := "stx"

/-- The per-class minimum identity table `stxClass2identity[]`
    (stxtyper.cpp:735-751), as an association list. -/
def stxClassTable : List (String × ℚ) :=
  [("1a", mkRat 983 1000), ("1c", mkRat 983 1000), ("1d", mkRat 983 1000),
   ("1e", mkRat 983 1000),
   ("2", mkRat 98 100), ("2b", mkRat 98 100), ("2e", mkRat 98 100),
   ("2f", mkRat 98 100), ("2g", mkRat 98 100), ("2h", mkRat 98 100),
   ("2i", mkRat 98 100), ("2j", mkRat 98 100),
   ("2k", mkRat 985 1000), ("2l", mkRat 985 1000),
   ("2m", mkRat 98 100), ("2n", mkRat 98 100), ("2o", mkRat 98 100)]

/-- `stxClass2identity [c]`: C++ `std::map::operator[]` default-inserts the
    value `0.0` for a key that is absent, so the lookup is modelled as a total
    function with default `0`. -/
def stxClass2identity (c : String) : ℚ :=
  ((stxClassTable.lookup c).getD 0)

/-- `contains (stxClass2identity, c)` (used by `BlastAlignment::qc`). -/
def stxClassKnown (c : String) : Bool :=
  (stxClassTable.lookup c).isSome

/-! ## Data model: `struct BlastAlignment` (stxtyper.cpp:85-348)

All positions are 0-based with `targetStart < targetEnd`, exactly as the
constructor normalizes them. -/

structure BlastAlignment where
  length : Nat
  nident : Nat
  refStart : Nat
  refEnd : Nat
  refLen : Nat
  targetStart : Nat
  targetEnd : Nat
  targetLen : Nat
  stopCodon : Bool
  frameshift : Bool
  targetName : String
  targetSeq : String
  targetStrand : Bool
  refAccession : String
  refSeq : String
  stxType : String
  stxClass : String
  stxSuperClass : String
  subunit : Char
  reported : Bool
deriving DecidableEq, Repr, Inhabited

namespace BlastAlignment

/-- `getFrame` (stxtyper.cpp:260-261): `(targetStart % 3) + 1`. -/
def getFrame (al : BlastAlignment) : Nat := al.targetStart % 3 + 1

/-- `getIdentity` (stxtyper.cpp:262-263): `nident / length` as an exact
    rational (`mkRat` of the two counters). -/
def getIdentity (al : BlastAlignment) : ℚ := mkRat al.nident al.length

/-- `getAbsCoverage` (stxtyper.cpp:264-265). `Nat` subtraction; the qc
    invariant `refStart < refEnd` keeps it non-wrapping. -/
def getAbsCoverage (al : BlastAlignment) : Nat := al.refEnd - al.refStart

/-- `getRelCoverage` (stxtyper.cpp:266-267). -/
def getRelCoverage (al : BlastAlignment) : ℚ := mkRat al.getAbsCoverage al.refLen

/-- `getDiff` (stxtyper.cpp:268-269):
    `refStart + (refLen - refEnd) + (length - nident)`; `Nat` subtraction,
    non-wrapping under the qc invariants `refEnd <= refLen`, `nident <= length`. -/
def getDiff (al : BlastAlignment) : Nat :=
  al.refStart + (al.refLen - al.refEnd) + (al.length - al.nident)

/-- `truncated` (stxtyper.cpp:270-273); `refStart` used as a boolean means
    `refStart != 0`. -/
def truncated (al : BlastAlignment) : Bool :=
  (decide (al.targetStart ≤ 3) &&
    ((al.targetStrand && decide (al.refStart ≠ 0)) ||
     (!al.targetStrand && decide (al.refEnd + 1 < al.refLen)))) ||
  (decide (al.targetLen - al.targetEnd ≤ 3) &&
    ((al.targetStrand && decide (al.refEnd + 1 < al.refLen)) ||
     (!al.targetStrand && decide (al.refStart ≠ 0))))

/-- `getExtended` (stxtyper.cpp:279-280): `!refStart && refEnd + 1 == refLen`. -/
def getExtended (al : BlastAlignment) : Bool :=
  decide (al.refStart = 0) && decide (al.refEnd + 1 = al.refLen)

/-- `insideEq` (stxtyper.cpp:281-284). -/
def insideEq (al other : BlastAlignment) : Bool :=
  decide (other.targetStart ≤ al.targetStart) && decide (al.targetEnd ≤ other.targetEnd)

/-- `refMap` (stxtyper.cpp:285-293): the reference-frame projection.  The
    C++ loop appends `targetSeq[i]` for every non-gap `refSeq[i]`; the two
    aligned strings have equal length for every constructed hit (qc), which
    the `zip` reflects.  `QC_ASSERT (refLen <= len)` is a precondition; the
    trailing pad `len - refEnd` is `Nat` subtraction. -/
def refMap (al : BlastAlignment) (len : Nat) : List Char :=
  List.replicate al.refStart '-' ++
  ((al.refSeq.data.zip al.targetSeq.data).filterMap
    (fun pr => if pr.1 ≠ '-' then some pr.2 else none)) ++
  List.replicate (len - al.refEnd) '-'

/-- `merge` (stxtyper.cpp:242-259): the current hit `al` absorbs the earlier
    hit `prev`.  The `ASSERT`s of the C++ member (same contig / accession /
    strand / lengths, `targetStart > prev.targetStart`) are preconditions
    established by the caller's guard. -/
def merge (al prev : BlastAlignment) : BlastAlignment :=
  { al with
    targetStart := prev.targetStart
    refStart := if al.targetStrand then prev.refStart else al.refStart
    refEnd := if al.targetStrand then al.refEnd else prev.refEnd
    length := al.length + prev.length
    nident := al.nident + prev.nident
    stopCodon := al.stopCodon || prev.stopCodon
    frameshift := true }

/-- `qc` (stxtyper.cpp:178-204) as a boolean validity check (the program
    aborts when any conjunct fails and qc is enabled). -/
def qcOk (al : BlastAlignment) : Bool :=
  decide (0 < al.length) && decide (0 < al.nident) && decide (al.nident ≤ al.length) &&
  decide (al.targetStart < al.targetEnd) && decide (al.targetEnd ≤ al.targetLen) &&
  decide (al.refStart < al.refEnd) && decide (al.refEnd ≤ al.refLen) &&
  (al.frameshift ||
    (decide (al.nident ≤ al.refEnd - al.refStart) &&
     decide (al.refEnd - al.refStart ≤ al.length))) &&
  decide (al.targetName ≠ "") &&
  stxClassKnown al.stxClass &&
  al.stxClass.data.isPrefixOf al.stxType.data &&
  (decide (al.subunit = 'A') || decide (al.subunit = 'B')) &&
  decide (al.refAccession ≠ "") &&
  decide (al.targetSeq ≠ "") && decide (al.refSeq ≠ "") &&
  decide (al.targetSeq.data.length = al.refSeq.data.length) &&
  (al.frameshift || decide (al.length = al.targetSeq.data.length)) &&
  decide (al.stxType.data.length = 2)

end BlastAlignment

/-! ## Sort comparators

`LESS_PART (a, b, f)` expands to "compare `a.f` with `b.f`; decide if they
differ, otherwise fall through", so a comparator written as a chain of
`LESS_PART`s computes the strict lexicographic order on the tuple of listed
fields.  `String` comparison is byte-lexicographic in C++, which agrees with
the character-lexicographic order of the underlying character list. -/

/-- Key type of `BlastAlignment::sameTypeLess` (stxtyper.cpp:307-320). -/
abbrev SameTypeKey :=
  Bool ×ₗ List Char ×ₗ Bool ×ₗ List Char ×ₗ Char ×ₗ Nat ×ₗ Nat ×ₗ List Char

/-- The field tuple compared by `sameTypeLess` (stxtyper.cpp:307-320), in
    source order: reported, targetName, targetStrand, stxClass, subunit,
    targetStart, getDiff(), refAccession. -/
def fullKey (al : BlastAlignment) : SameTypeKey :=
  toLex (al.reported, toLex (al.targetName.data, toLex (al.targetStrand,
    toLex (al.stxClass.data, toLex (al.subunit, toLex (al.targetStart,
      toLex (al.getDiff, al.refAccession.data)))))))

/-- `BlastAlignment::sameTypeLess` (stxtyper.cpp:307-320). -/
def sameTypeLessB (a b : BlastAlignment) : Bool :=
  decide (fullKey a < fullKey b)

/-- The (targetName, targetStrand, stxClass, subunit) portion of the sort
    key: the grouping used by the hit-level redundancy filter's window. -/
def gkey (al : BlastAlignment) : List Char ×ₗ Bool ×ₗ List Char ×ₗ Char :=
  toLex (al.targetName.data, toLex (al.targetStrand, toLex (al.stxClass.data, al.subunit)))

/-! ## Frameshift merger (stxtyper.cpp:796-819) -/

/-- The merge guard of the frameshift scan (stxtyper.cpp:803-810): same
    contig, strand and reference accession; strictly increasing target
    start; `(int) targetStart - (int) prev.targetEnd < 10`; different
    reading frames. -/
def mergeGuard (prev al : BlastAlignment) : Bool :=
  decide (al.targetName = prev.targetName) &&
  decide (al.targetStrand = prev.targetStrand) &&
  decide (al.refAccession = prev.refAccession) &&
  decide (prev.targetStart < al.targetStart) &&
  decide ((al.targetStart : Int) - (prev.targetEnd : Int) < 10) &&
  decide (al.getFrame ≠ prev.getFrame)

/-- The body of the frameshift scan: `prev` is the previous list element
    (possibly itself a merge result); on a merge the earlier hit is marked
    `reported` and the absorbing hit replaces `prev` for the next step
    (stxtyper.cpp:800-818). -/
def mergerGo (prev : BlastAlignment) : List BlastAlignment → List BlastAlignment
  | [] => [prev]
  | al :: t =>
    if mergeGuard prev al then
      { prev with reported := true } :: mergerGo (al.merge prev) t
    else
      prev :: mergerGo al t

/-- The frameshift merger pass over the `frameshiftLess`-sorted hit list
    (stxtyper.cpp:796-819); returns the post-state of all hits in order. -/
def mergerPass : List BlastAlignment → List BlastAlignment
  | [] => []
  | al :: t => mergerGo al t

/-! ## Hit-level redundancy filter (stxtyper.cpp:823-865) -/

/-- The window-advance condition of the filter (stxtyper.cpp:831-839): the
    window start hit must share targetName, targetStrand, stxClass and
    subunit with the current hit and still overlap it
    (`targetEnd > al.targetStart`). -/
def sameGroupB (p h : BlastAlignment) : Bool :=
  decide (p.targetName = h.targetName) &&
  decide (p.targetStrand = h.targetStrand) &&
  decide (p.stxClass = h.stxClass) &&
  decide (p.subunit = h.subunit)

def windowPredB (p h : BlastAlignment) : Bool :=
  sameGroupB p h && decide (h.targetStart < p.targetEnd)

/-- The suppression test of the filter's inner loop (stxtyper.cpp:853-856):
    the current hit lies inside the window member and its diff-score is not
    better. -/
def suppressByB (h p : BlastAlignment) : Bool :=
  h.insideEq p && decide (p.getDiff ≤ h.getDiff)

/-- The filter loop (stxtyper.cpp:826-864).  `window` is the slice
    `[start, i)` of the sorted hit list; the persistent index `start` is
    the front of `window`, and its advance (`while … start++`) is the
    `dropWhile`.  `if (al->reported) break;` stops the whole scan.  A hit
    that is not suppressed is appended to the good-hits output. -/
def hitFilterGo : List BlastAlignment → List BlastAlignment → List BlastAlignment
  | _, [] => []
  | window, h :: t =>
    let w := window.dropWhile (fun p => !windowPredB p h)
    if h.reported then []
    else if w.any (fun p => suppressByB h p) then hitFilterGo (w ++ [h]) t
    else h :: hitFilterGo (w ++ [h]) t

/-- The hit-level redundancy filter on the `sameTypeLess`-sorted list. -/
def hitFilter (hs : List BlastAlignment) : List BlastAlignment :=
  hitFilterGo [] hs

/-- Reference formulation used to reason about the filter: a hit is
    suppressed exactly when some earlier hit of the same
    contig/strand/class/subunit group contains it with a diff-score that is
    not worse.  (Proved equivalent to `hitFilter` on sorted valid input.) -/
def specGo : List BlastAlignment → List BlastAlignment → List BlastAlignment
  | _, [] => []
  | seen, h :: t =>
    if h.reported then []
    else if seen.any (fun p => sameGroupB p h && suppressByB h p) then specGo (seen ++ [h]) t
    else h :: specGo (seen ++ [h]) t

/-! ## Operon assembly: `goodBlasts2operons` (stxtyper.cpp:530-625)

Operons under construction are pairs of indices into the hit array (the C++
`Operon` holds pointers into the hit vector; only the mutable `reported`
flag ever changes after construction). -/

/-- The combined operon identity `Operon::getIdentity` (stxtyper.cpp:499-500):
    `(al1.nident + al2.nident) / (al1.length + al2.length)`. -/
def pairIdentity (al1 al2 : BlastAlignment) : ℚ :=
  mkRat (al1.nident + al2.nident) (al1.length + al2.length)

/-- The acceptance test of the pairing loop (stxtyper.cpp:577-596), after
    the strand swap that makes `al1` the leftmost hit: the pair is accepted
    when `al1.targetEnd <= al2.targetStart`, the intergenic gap is at most
    `intergenic_max * (strong ? 1 : 2)`, and — in the strong passes only —
    the combined identity reaches the per-class threshold of both hits'
    classes. -/
def acceptPairB (strong : Bool) (al1 al2 : BlastAlignment) : Bool :=
  decide (al1.targetEnd ≤ al2.targetStart) &&
  decide (al2.targetStart - al1.targetEnd ≤ intergenic_max * (if strong then 1 else 2)) &&
  (!strong ||
    (decide (stxClass2identity al1.stxClass ≤ pairIdentity al1 al2) &&
     decide (stxClass2identity al2.stxClass ≤ pairIdentity al1 al2)))

/-- Window advance of the pairing loop (stxtyper.cpp:551-559): move `start`
    forward while the window-start hit does not match the current B hit on
    contig, strand and (in the same-type pass) class.  Fuel-indexed; called
    with fuel `i`, which bounds the advance. -/
def passAdvance (sameType : Bool) (hits : Array BlastAlignment) (alB : BlastAlignment)
    (i : Nat) : Nat → Nat → Nat
  | start, 0 => start
  | start, fuel + 1 =>
    if start < i then
      if decide ((hits.getD start default).targetName = alB.targetName) &&
         decide ((hits.getD start default).targetStrand = alB.targetStrand) &&
         (!sameType || decide ((hits.getD start default).stxClass = alB.stxClass)) then
        start
      else passAdvance sameType hits alB i (start + 1) fuel
    else start

/-- Inner pairing loop `FOR_START (j, start, i)` (stxtyper.cpp:560-598):
    skip reported A candidates, stop at the subunit boundary, swap by
    strand, and on acceptance record the operon and mark both hits
    reported.  There is no break after an acceptance. -/
def passInnerGo (strong : Bool) (iB : Nat) :
    Nat → Nat → Array BlastAlignment × List (Nat × Nat) → Array BlastAlignment × List (Nat × Nat)
  | _, 0, st => st
  | j, fuel + 1, st =>
    if j < iB then
      let hits := st.1
      let alB := hits.getD iB default
      let alA := hits.getD j default
      if alA.reported then passInnerGo strong iB (j + 1) fuel st
      else if alA.subunit = alB.subunit then st
      else
        let al1 := if alA.targetStrand then alA else alB
        let al2 := if alA.targetStrand then alB else alA
        let i1 := if alA.targetStrand then j else iB
        let i2 := if alA.targetStrand then iB else j
        if acceptPairB strong al1 al2 then
          passInnerGo strong iB (j + 1) fuel
            ((hits.modify i1 (fun x => { x with reported := true })).modify i2
               (fun x => { x with reported := true }),
             st.2 ++ [(i1, i2)])
        else passInnerGo strong iB (j + 1) fuel st
    else st

/-- Outer pairing loop (stxtyper.cpp:541-599): for each unreported B hit,
    advance the window and run the inner loop; the window start persists
    across iterations. -/
def passOuterGo (sameType strong : Bool) (n : Nat) :
    Nat → Nat → Nat → Array BlastAlignment × List (Nat × Nat) →
    Array BlastAlignment × List (Nat × Nat)
  | _, _, 0, st => st
  | i, start, fuel + 1, st =>
    if i < n then
      let alB := st.1.getD i default
      if alB.reported then passOuterGo sameType strong n (i + 1) start fuel st
      else if alB.subunit ≠ 'B' then passOuterGo sameType strong n (i + 1) start fuel st
      else
        let start2 := passAdvance sameType st.1 alB i start i
        let st2 := passInnerGo strong i start2 (i - start2) st
        passOuterGo sameType strong n (i + 1) start2 fuel st2
    else st

/-- Post-acceptance suppression (stxtyper.cpp:607-624): every still
    unreported hit whose target range lies within
    `[op.al1.targetStart - slack, op.al2.targetEnd + slack]` of some
    accepted operon on the same contig and strand is marked reported.
    (`al.targetStart + slack >= op.al1.targetStart` is the wrap-free form
    of the lower bound used by the source.) -/
def passSuppress (hits : Array BlastAlignment) (ops : List (Nat × Nat)) :
    Array BlastAlignment :=
  hits.map fun al =>
    if !al.reported &&
       ops.any (fun pr =>
         decide (al.targetName = (hits.getD pr.1 default).targetName) &&
         decide ((hits.getD pr.1 default).targetStart ≤ al.targetStart + slack) &&
         decide (al.targetEnd ≤ (hits.getD pr.2 default).targetEnd + slack) &&
         decide (al.targetStrand = (hits.getD pr.1 default).targetStrand)) then
      { al with reported := true }
    else al

/-- One operon-assembly pass `goodBlasts2operons` (stxtyper.cpp:530-625):
    the pairing loop followed by the suppression loop.  `ops` accumulates
    operons across passes, exactly as the C++ `operons` vector does. -/
def goodBlasts2operons (sameType strong : Bool) (hits : Array BlastAlignment)
    (ops : List (Nat × Nat)) : Array BlastAlignment × List (Nat × Nat) :=
  let st := passOuterGo sameType strong hits.size 0 0 hits.size (hits, ops)
  (passSuppress st.1 st.2, st.2)

/-! ## Operon values and reporting (stxtyper.cpp:352-526) -/

/-- `struct Operon` (stxtyper.cpp:352-365): `al1` is always present, `al2`
    only for a paired call. -/
structure Operon where
  al1 : BlastAlignment
  al2 : Option BlastAlignment
deriving DecidableEq, Repr, Inhabited

namespace Operon

/-- `Operon::qc` (stxtyper.cpp:369-383) as a boolean check. -/
def qcB (op : Operon) : Bool :=
  op.al1.qcOk && op.al1.reported &&
  (match op.al2 with
   | none => true
   | some a2 =>
     a2.qcOk &&
     decide (op.al1.targetName = a2.targetName) &&
     decide (op.al1.targetStrand = a2.targetStrand) &&
     decide (op.al1.targetEnd < a2.targetStart) &&
     decide (op.al1.subunit ≠ a2.subunit) &&
     a2.reported)

def hasAl2B (op : Operon) : Bool := op.al2.isSome

/-- `Operon::getRefAccession2` (stxtyper.cpp:456-460). -/
def getRefAccession2 (op : Operon) : String :=
  match op.al2 with
  | some a2 => a2.refAccession
  | none => ""

end Operon

/-- `Operon::getA` (stxtyper.cpp:450-451) for a paired operon: `al1` on the
    forward strand, `al2` otherwise. -/
def pairA (al1 al2 : BlastAlignment) : BlastAlignment :=
  if al1.targetStrand then al1 else al2

/-- `Operon::getB` (stxtyper.cpp:452-453) for a paired operon. -/
def pairB (al1 al2 : BlastAlignment) : BlastAlignment :=
  if al1.targetStrand then al2 else al1

/-- `Operon::getStxType` (stxtyper.cpp:461-493) for a paired operon.  The
    C++ `a [312]` etc. index `std::string::operator[]`; positions are read
    with default `'-'` (out-of-range reads are undefined behaviour in the
    source and never reached for genuine 313/90-residue references). -/
def pairStxType (al1 al2 : BlastAlignment) (verboseP : Bool) : String :=
  if al1.stxClass ≠ al2.stxClass then
    (if al1.stxSuperClass = al2.stxSuperClass then al1.stxSuperClass else "")
  else if al1.stxClass ≠ "2" then al1.stxType
  else
    let a := (pairA al1 al2).refMap (319 + 1)
    let b := (pairB al1 al2).refMap (89 + 1)
    let c1 := a.getD 312 '-'
    let c2 := a.getD 318 '-'
    let c3 := b.getD 34 '-'
    if (c1 = 'F' ∨ c1 = 'S') ∧ (c2 = 'K' ∨ c2 = 'E') ∧ c3 = 'D' then "2a"
    else if c1 = 'F' ∧ (c2 = 'K' ∨ c2 = 'E') ∧ c3 = 'N' then "2c"
    else if c1 = 'S' ∧ c2 = 'E' ∧ c3 = 'N' then "2d"
    else if verboseP then String.mk ['2', ' ', c1, c2, c3]
    else "2"

/-- `Operon::partial` (stxtyper.cpp:494-497); renamed because of the Lean
    keyword. -/
def pairPartialCov (al1 al2 : BlastAlignment) : Bool :=
  (decide ((pairA al1 al2).getRelCoverage < 1) && !(pairA al1 al2).getExtended) ||
  (decide ((pairB al1 al2).getRelCoverage < 1) && !(pairB al1 al2).getExtended)

/-- The `novel` flag of `Operon::saveTsvOut` (stxtyper.cpp:391-393). -/
def novelB (al1 al2 : BlastAlignment) : Bool :=
  decide (al1.stxClass ≠ al2.stxClass) ||
  decide (pairIdentity al1 al2 < stxClass2identity al1.stxClass) ||
  decide ((pairStxType al1 al2 false).data.length ≤ 1)

/-- The `operonType` chain of `Operon::saveTsvOut` (stxtyper.cpp:394-420),
    active (`#if 0`-free) branch. -/
def operonTypeStr (al1 al2 : BlastAlignment) : String :=
  if (pairA al1 al2).frameshift || (pairB al1 al2).frameshift then "FRAMESHIFT"
  else if (pairA al1 al2).stopCodon || (pairB al1 al2).stopCodon then "INTERNAL_STOP"
  else if (pairA al1 al2).truncated || (pairB al1 al2).truncated then "PARTIAL_CONTIG_END"
  else if pairPartialCov al1 al2 then "PARTIAL"
  else if (pairA al1 al2).getExtended || (pairB al1 al2).getExtended then "EXTENDED"
  else if novelB al1 al2 then "COMPLETE" ++ "_NOVEL"
  else "COMPLETE"

/-- C++ `stxType.erase (1)`: keep only the first character. -/
def eraseFrom1 (s : String) : String := String.mk (s.data.take 1)

/-- The row rendered by `Operon::saveTsvOut` for a paired operon
    (stxtyper.cpp:384-446), with the cells in source order (numeric cells
    kept as exact numbers; the `* 100.0` scalings of the output are applied). -/
structure OperonRow where
  targetContig : String
  stxTypeCell : String
  operonCell : String
  identityCell : ℚ
  targetStartCell : Nat
  targetStopCell : Nat
  strandCell : Char
  aRefCell : String
  aIdentityCell : ℚ
  aCoverageCell : ℚ
  bRefCell : String
  bIdentityCell : ℚ
  bCoverageCell : ℚ
deriving DecidableEq, Repr

/-- `Operon::saveTsvOut` (stxtyper.cpp:384-446) for a paired operon with
    `verboseP = false` (the final-report path, stxtyper.cpp:940-941):
    resolve the type, derive the operon status, truncate the reported type
    to its first character when the status is not COMPLETE and the resolved
    type has at least 2 characters, then emit the cells. -/
def pairRow (al1 al2 : BlastAlignment) : OperonRow :=
  let stxType := pairStxType al1 al2 false
  let operonType := operonTypeStr al1 al2
  let stxTypeOut :=
    if operonType ≠ "COMPLETE" ∧ 2 ≤ stxType.data.length then eraseFrom1 stxType
    else stxType
  { targetContig := al1.targetName
    stxTypeCell := stxS ++ stxTypeOut
    operonCell := operonType
    identityCell := pairIdentity al1 al2 * 100
    targetStartCell := al1.targetStart + 1
    targetStopCell := al2.targetEnd
    strandCell := if al1.targetStrand then '+' else '-'
    aRefCell := (pairA al1 al2).refAccession
    aIdentityCell := (pairA al1 al2).getIdentity * 100
    aCoverageCell := (pairA al1 al2).getRelCoverage * 100
    bRefCell := (pairB al1 al2).refAccession
    bIdentityCell := (pairB al1 al2).getIdentity * 100
    bCoverageCell := (pairB al1 al2).getRelCoverage * 100 }

/-- The key tuple of `Operon::reportLess` (stxtyper.cpp:515-525), in source
    order: contig, target start, target end, strand (descending: `true`
    sorts first, hence the negation), first reference accession, presence
    of a second subunit, second reference accession. -/
def reportKey (op : Operon) :
    List Char ×ₗ Nat ×ₗ Nat ×ₗ Bool ×ₗ List Char ×ₗ Bool ×ₗ List Char :=
  toLex (op.al1.targetName.data, toLex (op.al1.targetStart, toLex (op.al1.targetEnd,
    toLex (!op.al1.targetStrand, toLex (op.al1.refAccession.data,
      toLex (op.hasAl2B, op.getRefAccession2.data))))))

/-- `Operon::reportLess` (stxtyper.cpp:515-525). -/
def reportLessB (a b : Operon) : Bool :=
  decide (reportKey a < reportKey b)

/-! ## Alignment-line parser: `BlastAlignment::BlastAlignment`
    (stxtyper.cpp:117-177) -/

/-- The error taxonomy of the constructor: `malformedDatabase` is the
    `runtime_error ("Bad StxTyper database…")` thrown when `rfindSplit`
    finds no delimiter (stxtyper.cpp:130-138); `malformedRecord` stands for
    any failed `QC_ASSERT` on the record's own fields. -/
inductive ParseError
  | malformedDatabase
  | malformedRecord
deriving DecidableEq, Repr

/-- `rfindSplit (s, c)`: split at the LAST occurrence of `c`, returning
    (remainder, suffix); `none` when `c` does not occur. -/
def rfindSplitList (c : Char) : List Char → Option (List Char × List Char)
  | [] => none
  | a :: t =>
    match rfindSplitList c t with
    | some (pre, post) => some (a :: pre, post)
    | none => if a = c then some ([], t) else none

/-- The two `rfindSplit (sseqid, '|')` calls (stxtyper.cpp:132-133):
    returns (reference accession, family id) when `sseqid` has at least two
    delimiters. -/
def sseqidSplit (s : String) : Option (String × String) :=
  match rfindSplitList '|' s.data with
  | none => none
  | some (rest, famId) =>
    match rfindSplitList '|' rest with
    | none => none
    | some (_, acc) => some (String.mk acc, String.mk famId)

/-- The ten whitespace-separated input fields of one alignment line
    (stxtyper.cpp:122-125), already tokenized. -/
structure BlastFields where
  targetName : String
  sseqid : String
  targetStart : Nat
  targetEnd : Nat
  targetLen : Nat
  refStart : Nat
  refEnd : Nat
  refLen : Nat
  targetSeq : String
  refSeq : String
deriving DecidableEq, Repr

/-- `nident` computation (stxtyper.cpp:146-151): count of equal aligned
    columns. -/
def countEqual : List Char → List Char → Nat
  | a :: t, b :: u => (if a = b then 1 else 0) + countEqual t u
  | _, _ => 0

/-- The constructor `BlastAlignment::BlastAlignment` (stxtyper.cpp:117-177)
    over the tokenized fields, with every fatal check in source order:
    non-empty target sequence; decodable subject id (else
    `malformedDatabase`); 6-character family code starting with `stx`;
    equal aligned-sequence lengths; `refStart < refEnd`;
    `targetStart != targetEnd`; strand normalization by swap; both 1-based
    start coordinates positive (then decremented to 0-based); internal stop
    codon detection (`'*'` before the final column). -/
def parseHit (f : BlastFields) : Except ParseError BlastAlignment :=
  if f.targetSeq = "" then .error .malformedRecord
  else
    match sseqidSplit f.sseqid with
    | none => .error .malformedDatabase
    | some (acc, famId) =>
      if famId.data.length ≠ 6 then .error .malformedRecord
      else if ¬ stxS.data.isPrefixOf famId.data then .error .malformedRecord
      else if f.targetSeq.data.length ≠ f.refSeq.data.length then .error .malformedRecord
      else if ¬ f.refStart < f.refEnd then .error .malformedRecord
      else if f.targetStart = f.targetEnd then .error .malformedRecord
      else if ¬ 1 ≤ f.refStart then .error .malformedRecord
      else if ¬ 1 ≤ min f.targetStart f.targetEnd then .error .malformedRecord
      else
        let subunit := famId.data.getD 3 ' '
        let stxType : String := String.mk (famId.data.drop 4)
        let stxClass := if stxType = "2a" ∨ stxType = "2c" ∨ stxType = "2d" then "2" else stxType
        let stopCodonAt := f.targetSeq.data.findIdx? (fun ch => decide (ch = '*'))
        .ok
          { length := f.targetSeq.data.length
            nident := countEqual f.targetSeq.data f.refSeq.data
            refStart := f.refStart - 1
            refEnd := f.refEnd
            refLen := f.refLen
            targetStart := min f.targetStart f.targetEnd - 1
            targetEnd := max f.targetStart f.targetEnd
            targetLen := f.targetLen
            stopCodon :=
              match stopCodonAt with
              | some i => decide (i + 1 < f.targetSeq.data.length)
              | none => false
            frameshift := false
            targetName := f.targetName
            targetSeq := f.targetSeq
            targetStrand := decide (f.targetStart < f.targetEnd)
            refAccession := acc
            refSeq := f.refSeq
            stxType := stxType
            stxClass := stxClass
            stxSuperClass := String.mk (stxClass.data.take 1)
            subunit := subunit
            reported := false }

/-- The amended success condition for claim C8 (stated in the claim's own
    vocabulary): the record parses exactly when the subject id decodes to a
    6-character `stx…` family code, the aligned sequences are non-empty and
    of equal length, the reference span and the target span are non-empty,
    and the 1-based coordinates are positive. -/
def parseOkCond (f : BlastFields) : Prop :=
  f.targetSeq ≠ "" ∧
  (∃ pr, sseqidSplit f.sseqid = some pr ∧ pr.2.data.length = 6 ∧
    stxS.data.isPrefixOf pr.2.data = true) ∧
  f.targetSeq.data.length = f.refSeq.data.length ∧
  f.refStart < f.refEnd ∧
  f.targetStart ≠ f.targetEnd ∧
  1 ≤ f.refStart ∧
  1 ≤ min f.targetStart f.targetEnd

/-- The residue table of spec §4.6 for class-2 sub-typing, written from the
    spec's words (refinement target for claim C2): positions are the
    1-based reference columns A-313, A-319, B-35; the three listed cases
    are mutually exclusive, and every other residue combination yields the
    bare class. -/
def stx2SubtypeSpec (a313 a319 b35 : Char) : String :=
  if (a313 = 'F' ∨ a313 = 'S') ∧ (a319 = 'K' ∨ a319 = 'E') ∧ b35 = 'D' then "2a"
  else if a313 = 'F' ∧ (a319 = 'K' ∨ a319 = 'E') ∧ b35 = 'N' then "2c"
  else if a313 = 'S' ∧ a319 = 'E' ∧ b35 = 'N' then "2d"
  else "2"

/-- Count of non-gap columns of an aligned reference sequence (the number
    of characters `refMap` emits from the alignment body). -/
def gapFree (s : String) : Nat :=
  (s.data.filter (fun ch => decide (ch ≠ '-'))).length

/-! ## Concrete program states used by the claim theorems

Every hit below passes the program's own `qc` checks (`qcOk`), so each is a
state the pipeline itself accepts. -/

/-- Subunit-A hit of a class-1a pair with identity 9/10 (below the 0.983
    class threshold), full reference coverage, no structural defect. -/
def c1A : BlastAlignment :=
  { length := 10, nident := 9, refStart := 0, refEnd := 10, refLen := 10,
    targetStart := 100, targetEnd := 400, targetLen := 2000,
    stopCodon := false, frameshift := false,
    targetName := "contig1", targetSeq := "AAAAAAAAAC", targetStrand := true,
    refAccession := "AAA00001.1", refSeq := "AAAAAAAAAD",
    stxType := "1a", stxClass := "1a", stxSuperClass := "1",
    subunit := 'A', reported := false }

/-- Matching subunit-B hit, 20 bases downstream of `c1A`. -/
def c1B : BlastAlignment :=
  { c1A with
    subunit := 'B'
    targetStart := 420
    targetEnd := 720
    refAccession := "BBB00001.1" }

/-- Subunit-A hit whose strand-relative end touches the B hit's start. -/
def c3A : BlastAlignment :=
  { length := 10, nident := 10, refStart := 0, refEnd := 10, refLen := 10,
    targetStart := 10, targetEnd := 100, targetLen := 1000,
    stopCodon := false, frameshift := false,
    targetName := "contig1", targetSeq := "AAAAAAAAAA", targetStrand := true,
    refAccession := "AAA00001.1", refSeq := "AAAAAAAAAA",
    stxType := "1a", stxClass := "1a", stxSuperClass := "1",
    subunit := 'A', reported := false }

/-- Subunit-B hit starting exactly at `c3A.targetEnd` (intergenic gap 0). -/
def c3B : BlastAlignment :=
  { c3A with
    subunit := 'B'
    targetStart := 100
    targetEnd := 190
    refAccession := "BBB00001.1" }

/-- The same-type strong pass run on the two touching hits. -/
def c3Run : Array BlastAlignment × List (Nat × Nat) :=
  goodBlasts2operons true true #[c3A, c3B] []

/-- A/B candidates with intergenic gap 20 and identity 1. -/
def c4A : BlastAlignment := c3A

def c4B : BlastAlignment :=
  { c3A with
    subunit := 'B'
    targetStart := 120
    targetEnd := 210
    refAccession := "BBB00001.1" }

/-- A hit covering target range [10, 100) with diff-score 0. -/
def c6W1 : BlastAlignment := c3A

/-- A hit contained in `c6W1`'s target range with diff-score 1. -/
def c6W2 : BlastAlignment :=
  { c3A with
    targetStart := 20
    targetEnd := 90
    nident := 9
    targetSeq := "AAAAAAAAAC"
    refSeq := "AAAAAAAAAD"
    refAccession := "CCC00001.1" }

/-- Earlier fragment for the frameshift merger: target range [0, 500). -/
def c7P : BlastAlignment :=
  { length := 5, nident := 5, refStart := 0, refEnd := 5, refLen := 10,
    targetStart := 0, targetEnd := 500, targetLen := 1000,
    stopCodon := false, frameshift := false,
    targetName := "contig1", targetSeq := "AAAAA", targetStrand := true,
    refAccession := "AAA00001.1", refSeq := "AAAAA",
    stxType := "2a", stxClass := "2", stxSuperClass := "2",
    subunit := 'A', reported := false }

/-- Later fragment in a different frame whose target range [4, 10) ends far
    before `c7P`'s. -/
def c7C : BlastAlignment :=
  { c7P with
    length := 2
    nident := 2
    refStart := 5
    refEnd := 7
    targetStart := 4
    targetEnd := 10
    targetSeq := "AA"
    refSeq := "AA" }

/-- Tokenized alignment line whose 1-based reference start is 0: every
    condition named by claim C8 holds, yet the constructor rejects it. -/
def c8F : BlastFields :=
  { targetName := "contig1", sseqid := "X|ACC123.1|stxA1a",
    targetStart := 5, targetEnd := 50, targetLen := 100,
    refStart := 0, refEnd := 10, refLen := 20,
    targetSeq := "MKLVWPQRSTAB", refSeq := "MKLVWPQRSTAB" }

/-- Class-2 subunit-A hit placed so that reference columns 313 and 319
    carry F and K. -/
def c2A : BlastAlignment :=
  { length := 7, nident := 7, refStart := 312, refEnd := 319, refLen := 319,
    targetStart := 100, targetEnd := 121, targetLen := 1000,
    stopCodon := false, frameshift := false,
    targetName := "contig1", targetSeq := "FAAAAAK", targetStrand := true,
    refAccession := "AAA00001.1", refSeq := "FAAAAAK",
    stxType := "2a", stxClass := "2", stxSuperClass := "2",
    subunit := 'A', reported := false }

/-- Class-2 subunit-B hit placed so that reference column 35 carries D. -/
def c2B : BlastAlignment :=
  { c2A with
    length := 1
    nident := 1
    refStart := 34
    refEnd := 35
    refLen := 89
    targetStart := 140
    targetEnd := 143
    targetSeq := "D"
    refSeq := "D"
    subunit := 'B'
    refAccession := "BBB00001.1" }

/-- Non-frameshifted hit whose aligned reference sequence has a gap not
    matched by the `refEnd - refStart` span: `refMap` comes out short. -/
def c10H : BlastAlignment :=
  { length := 3, nident := 2, refStart := 0, refEnd := 3, refLen := 3,
    targetStart := 10, targetEnd := 19, targetLen := 100,
    stopCodon := false, frameshift := false,
    targetName := "contig1", targetSeq := "ABC", targetStrand := true,
    refAccession := "AAA00001.1", refSeq := "AB-",
    stxType := "2a", stxClass := "2", stxSuperClass := "2",
    subunit := 'A', reported := false }

/-- Earlier fragment of a frameshift merge spanning reference [0, 10). -/
def c10P : BlastAlignment :=
  { length := 10, nident := 10, refStart := 0, refEnd := 10, refLen := 300,
    targetStart := 0, targetEnd := 30, targetLen := 1000,
    stopCodon := false, frameshift := false,
    targetName := "contig1", targetSeq := "AAAAAAAAAA", targetStrand := true,
    refAccession := "AAA00001.1", refSeq := "AAAAAAAAAA",
    stxType := "2a", stxClass := "2", stxSuperClass := "2",
    subunit := 'A', reported := false }

/-- Later fragment spanning reference [195, 200) in another frame; the
    merged hit's reference span [0, 200) far exceeds its 5 alignment
    columns. -/
def c10C : BlastAlignment :=
  { c10P with
    length := 5
    nident := 5
    refStart := 195
    refEnd := 200
    targetStart := 31
    targetEnd := 46
    targetSeq := "AAAAA"
    refSeq := "AAAAA" }

/-- Hit used to witness the general `refMap` length law. -/
def c10W : BlastAlignment :=
  { c10P with
    refStart := 2
    refEnd := 4
    refLen := 5
    length := 2
    nident := 2
    targetStart := 7
    targetEnd := 13
    targetSeq := "CD"
    refSeq := "AB" }

/-- A paired operon on contig1 starting at 10. -/
def c9Op1 : Operon :=
  ⟨{ c3A with reported := true }, some { c3B with reported := true }⟩

/-- A singleton operon on contig1 starting at 500. -/
def c9Op2 : Operon :=
  ⟨{ c3A with targetStart := 500, targetEnd := 560, reported := true }, none⟩

/-! ## Helper lemmas -/

theorem zip_filterMap_length (s : List Char) :
    ∀ t : List Char, s.length = t.length →
      ((s.zip t).filterMap (fun pr => if pr.1 ≠ '-' then some pr.2 else none)).length
        = (s.filter (fun ch => decide (ch ≠ '-'))).length := by
  induction s with
  | nil => intro t _; simp
  | cons a s ih =>
    intro t ht
    cases t with
    | nil => simp at ht
    | cons b t =>
      simp only [List.length_cons, Nat.add_right_cancel_iff] at ht
      have hrec := ih t ht
      simp at hrec
      by_cases ha : a = '-'
      · simp [ha, List.zip_cons_cons, List.filterMap_cons, List.filter_cons, hrec]
      · simp [ha, List.zip_cons_cons, List.filterMap_cons, List.filter_cons, hrec]

/-! ### Claim C5

The claim says the suppression slack is strictly larger than the intergenic
gap threshold; in the source `slack = 30 < 36 = intergenic_max`, so the
claim is false and the corrected relation is `slack < intergenic_max`. -/

/-- C5 counterexample: the claim "slack > intergenic_max" is false for the
    source constants (stxtyper.cpp:78-79). -/
theorem C5_slack_not_larger_cex : ¬ intergenic_max < slack := by decide

/-- C5 (amended): the fixed slack constant used for post-acceptance
    suppression is strictly SMALLER than the operon-pairing intergenic gap
    threshold (`slack = 30`, `intergenic_max = 36`). -/
theorem C5_slack_below_gap : slack < intergenic_max := by decide

/-! ### Claim C7: frameshift merge post-state -/

/-- C7 counterexample: a merge performed by the frameshift merger whose
    result range is NOT the union of the two input ranges.  The two hits
    pass `qc`, the pass merges them (first conjunct), and target position
    400 lies in the earlier hit's range but not in the merged hit's range
    [0, 10). -/
theorem C7_merge_range_not_union_cex :
    mergerPass [c7P, c7C] = [{ c7P with reported := true }, c7C.merge c7P]
    ∧ c7P.targetStart ≤ 400 ∧ 400 ≤ c7P.targetEnd
    ∧ (c7C.merge c7P).targetEnd < 400
    ∧ c7P.qcOk = true ∧ c7C.qcOk = true := by decide

/-- C7 (amended): for every merge performed by the frameshift merger, the
    absorbing (later) hit's post-state has target range
    `[prev.targetStart, cur.targetEnd)` — the earlier hit's start and its
    own end, which is the union of the two ranges exactly when the earlier
    hit's end does not exceed the later hit's end; the reference boundary on
    the strand's 5-prime side widens to the earlier hit's; length and
    identical-count are the sums; `stopCodonPresent` is OR-combined;
    `frameshifted` becomes true; and the earlier hit is marked reported by
    the scan. -/
theorem C7_merge_post_state (p c : BlastAlignment) (t : List BlastAlignment)
    (h : mergeGuard p c = true) :
    mergerGo p (c :: t) = { p with reported := true } :: mergerGo (c.merge p) t
    ∧ (c.merge p).targetStart = p.targetStart
    ∧ (c.merge p).targetEnd = c.targetEnd
    ∧ (c.merge p).targetStart = min p.targetStart c.targetStart
    ∧ (p.targetEnd ≤ c.targetEnd → (c.merge p).targetEnd = max p.targetEnd c.targetEnd)
    ∧ (c.targetStrand = true → (c.merge p).refStart = p.refStart ∧ (c.merge p).refEnd = c.refEnd)
    ∧ (c.targetStrand = false → (c.merge p).refEnd = p.refEnd ∧ (c.merge p).refStart = c.refStart)
    ∧ (c.merge p).length = c.length + p.length
    ∧ (c.merge p).nident = c.nident + p.nident
    ∧ (c.merge p).stopCodon = (c.stopCodon || p.stopCodon)
    ∧ (c.merge p).frameshift = true := by
  have hlt : p.targetStart < c.targetStart := by
    simp only [mergeGuard, Bool.and_eq_true, decide_eq_true_eq] at h
    tauto
  refine ⟨by simp [mergerGo, h], rfl, rfl, ?_, ?_, ?_, ?_, rfl, rfl, rfl, rfl⟩
  · simp [BlastAlignment.merge, Nat.min_eq_left (Nat.le_of_lt hlt)]
  · intro hle; simp [BlastAlignment.merge, Nat.max_eq_right hle]
  · intro hstr; simp [BlastAlignment.merge, hstr]
  · intro hstr; simp [BlastAlignment.merge, hstr]

/-- C7 witness: the post-state law applied to the concrete merge of `c7P`
    into `c7C`. -/
theorem C7_merge_post_state_witness :
    mergeGuard c7P c7C = true
    ∧ (mergerGo c7P [c7C] = [{ c7P with reported := true }, c7C.merge c7P]
       ∧ (c7C.merge c7P).targetStart = c7P.targetStart
       ∧ (c7C.merge c7P).targetEnd = c7C.targetEnd
       ∧ (c7C.merge c7P).targetStart = min c7P.targetStart c7C.targetStart
       ∧ (c7P.targetEnd ≤ c7C.targetEnd →
           (c7C.merge c7P).targetEnd = max c7P.targetEnd c7C.targetEnd)
       ∧ (c7C.targetStrand = true →
           (c7C.merge c7P).refStart = c7P.refStart ∧ (c7C.merge c7P).refEnd = c7C.refEnd)
       ∧ (c7C.targetStrand = false →
           (c7C.merge c7P).refEnd = c7P.refEnd ∧ (c7C.merge c7P).refStart = c7C.refStart)
       ∧ (c7C.merge c7P).length = c7C.length + c7P.length
       ∧ (c7C.merge c7P).nident = c7C.nident + c7P.nident
       ∧ (c7C.merge c7P).stopCodon = (c7C.stopCodon || c7P.stopCodon)
       ∧ (c7C.merge c7P).frameshift = true) :=
  ⟨by decide, C7_merge_post_state c7P c7C [] (by decide)⟩

/-! ### Claim C10: refMap length and index bounds -/

/-- C10 counterexample: a qc-valid, non-frameshifted hit with
    `refLen ≤ 320` whose 320-column projection does not have length 320
    (its aligned reference sequence contains a gap not accounted for by the
    `refEnd - refStart` span, which no constructor or qc check excludes). -/
theorem C10_refMap_length_cex :
    c10H.qcOk = true ∧ c10H.frameshift = false ∧ c10H.refLen ≤ 320
    ∧ (c10H.refMap 320).length ≠ 320 := by decide

/-- C10 (amended): for a non-frameshifted hit whose aligned sequences have
    equal length and whose aligned reference sequence has exactly
    `refEnd - refStart` non-gap columns (true of genuine BLAST alignments),
    `refMap len` has length exactly `len` whenever
    `refStart ≤ refEnd ≤ refLen ≤ len` — so the fixed-index reads 312/318
    of the 320-column A projection and 34 of the 90-column B projection are
    in bounds.  For a frameshift-merged hit the projection can be shorter
    than `len`: the concrete merged hit below has a 320-column projection of
    length < 313, so those reads are not guaranteed in bounds. -/
theorem C10_refMap_length :
    (∀ (al : BlastAlignment) (len : Nat),
       al.frameshift = false →
       al.refSeq.data.length = al.targetSeq.data.length →
       al.refStart ≤ al.refEnd → al.refEnd ≤ al.refLen → al.refLen ≤ len →
       gapFree al.refSeq = al.refEnd - al.refStart →
       (al.refMap len).length = len)
    ∧ (mergeGuard c10P c10C = true ∧ (c10C.merge c10P).frameshift = true
       ∧ ((c10C.merge c10P).refMap 320).length < 313) := by
  constructor
  · intro al len _ hlen h1 h2 h3 hgap
    simp only [BlastAlignment.refMap, List.length_append, List.length_replicate]
    rw [zip_filterMap_length _ _ hlen]
    have : (al.refSeq.data.filter fun ch => decide (ch ≠ '-')).length
        = al.refEnd - al.refStart := hgap
    omega
  · exact ⟨by decide, by decide, by decide⟩

/-- C10 witness: the length law applied to the concrete hit `c10W`. -/
theorem C10_refMap_length_witness :
    (c10W.frameshift = false
     ∧ c10W.refSeq.data.length = c10W.targetSeq.data.length
     ∧ c10W.refStart ≤ c10W.refEnd ∧ c10W.refEnd ≤ c10W.refLen
     ∧ c10W.refLen ≤ 320
     ∧ gapFree c10W.refSeq = c10W.refEnd - c10W.refStart)
    ∧ (c10W.refMap 320).length = 320 :=
  ⟨by decide,
   C10_refMap_length.1 c10W 320 (by decide) (by decide) (by decide) (by decide)
     (by decide) (by decide)⟩

/-! ### Claim C3: invariants at operon acceptance -/

/-- C3: concrete failing input for the claimed acceptance invariant.  Two
    qc-valid hits with `A.targetEnd = B.targetStart = 100` are accepted by
    the same-type strong pass (the source condition at stxtyper.cpp:577 is
    `al1->targetEnd <= al2->targetStart`), producing the operon `(0, 1)`
    whose hits violate the strict inequality the claim states — and which
    the code's own `Operon::qc` (stxtyper.cpp:380,
    `QC_ASSERT (al1->targetEnd < al2->targetStart)`) rejects. -/
theorem C3_acceptance_invariant_failing_input :
    c3Run.2 = [(0, 1)]
    ∧ c3A.qcOk = true ∧ c3B.qcOk = true
    ∧ c3A.targetEnd = c3B.targetStart
    ∧ ¬ c3A.targetEnd < c3B.targetStart
    ∧ c3Run.1 = #[{ c3A with reported := true }, { c3B with reported := true }]
    ∧ Operon.qcB ⟨{ c3A with reported := true }, some { c3B with reported := true }⟩ = false := by
  decide

/-! ### Claim C4: per-pass gap and identity thresholds -/

/-- C4: in a strong pass a candidate pair is accepted only if the
    intergenic gap (`al2.targetStart - al1.targetEnd`, downstream start
    minus upstream end) is at most `intergenic_max` and the combined
    identity reaches the per-class threshold of both hits' classes; in the
    weak pass acceptance is exactly the geometric test with threshold
    `2 * intergenic_max` and no identity requirement. -/
theorem acceptPair_strong_iff (al1 al2 : BlastAlignment) :
    acceptPairB true al1 al2 = true ↔
      (al1.targetEnd ≤ al2.targetStart
       ∧ al2.targetStart - al1.targetEnd ≤ intergenic_max
       ∧ stxClass2identity al1.stxClass ≤ pairIdentity al1 al2
       ∧ stxClass2identity al2.stxClass ≤ pairIdentity al1 al2) := by
  simp [acceptPairB, and_assoc]

theorem acceptPair_weak_iff (al1 al2 : BlastAlignment) :
    acceptPairB false al1 al2 = true ↔
      (al1.targetEnd ≤ al2.targetStart
       ∧ al2.targetStart - al1.targetEnd ≤ intergenic_max * 2) := by
  simp [acceptPairB, and_assoc]

theorem C4_pass_gap_identity_conditions (al1 al2 : BlastAlignment) :
    (acceptPairB true al1 al2 = true →
      al1.targetEnd ≤ al2.targetStart
      ∧ al2.targetStart - al1.targetEnd ≤ intergenic_max
      ∧ stxClass2identity al1.stxClass ≤ pairIdentity al1 al2
      ∧ stxClass2identity al2.stxClass ≤ pairIdentity al1 al2)
    ∧ (acceptPairB false al1 al2 = true ↔
        al1.targetEnd ≤ al2.targetStart
        ∧ al2.targetStart - al1.targetEnd ≤ 2 * intergenic_max) := by
  have hcomm : intergenic_max * 2 = 2 * intergenic_max := Nat.mul_comm _ _
  constructor
  · intro h
    exact (acceptPair_strong_iff al1 al2).1 h
  · rw [acceptPair_weak_iff, hcomm]

/-- C4 witness: the strong-pass conditions extracted from the accepted
    concrete pair, and the weak-pass characterization instantiated there. -/
theorem C4_pass_conditions_witness :
    (c4A.targetEnd ≤ c4B.targetStart
     ∧ c4B.targetStart - c4A.targetEnd ≤ intergenic_max
     ∧ stxClass2identity c4A.stxClass ≤ pairIdentity c4A c4B
     ∧ stxClass2identity c4B.stxClass ≤ pairIdentity c4A c4B)
    ∧ (c4A.targetEnd ≤ c4B.targetStart
       ∧ c4B.targetStart - c4A.targetEnd ≤ 2 * intergenic_max) :=
  ⟨(C4_pass_gap_identity_conditions c4A c4B).1 (by decide),
   (C4_pass_gap_identity_conditions c4A c4B).2.mp (by decide)⟩

/-! ### Claim C1: type truncation versus operon status -/

theorem pairRow_operonCell (al1 al2 : BlastAlignment) :
    (pairRow al1 al2).operonCell = operonTypeStr al1 al2 := rfl

theorem pairRow_stxTypeCell (al1 al2 : BlastAlignment) :
    (pairRow al1 al2).stxTypeCell =
      stxS ++ (if operonTypeStr al1 al2 ≠ "COMPLETE"
                  ∧ 2 ≤ (pairStxType al1 al2 false).data.length
               then eraseFrom1 (pairStxType al1 al2 false)
               else pairStxType al1 al2 false) := rfl

theorem eraseFrom1_ne (s : String) (h : 2 ≤ s.data.length) : eraseFrom1 s ≠ s := by
  intro he
  have hl : (eraseFrom1 s).data.length = s.data.length := by rw [he]
  simp only [eraseFrom1, List.length_take] at hl
  omega

/-- C1 counterexample: a qc-valid rendered pair whose status is
    COMPLETE_NOVEL (class 1a, combined identity 9/10 below the 0.983
    threshold) and whose resolved type "1a" is nevertheless truncated to
    "1" in the report — the claim says COMPLETE_NOVEL keeps the full type. -/
theorem C1_complete_novel_truncated_cex :
    (pairRow c1A c1B).operonCell = "COMPLETE_NOVEL"
    ∧ pairStxType c1A c1B false = "1a"
    ∧ (pairRow c1A c1B).stxTypeCell = "stx1"
    ∧ (pairRow c1A c1B).stxTypeCell ≠ stxS ++ pairStxType c1A c1B false
    ∧ c1A.qcOk = true ∧ c1B.qcOk = true
    ∧ Operon.qcB ⟨{ c1A with reported := true }, some { c1B with reported := true }⟩ = true := by
  decide

/-- C1 (amended): for every rendered paired operon, the reported stx type
    string is truncated to its class character exactly when the structural
    status is different from COMPLETE (COMPLETE_NOVEL included) and the
    resolved type string has length at least 2. -/
theorem C1_type_truncation_vs_status (al1 al2 : BlastAlignment) :
    ((pairRow al1 al2).stxTypeCell = stxS ++ pairStxType al1 al2 false ↔
      ((pairRow al1 al2).operonCell = "COMPLETE"
       ∨ (pairStxType al1 al2 false).data.length < 2))
    ∧ ((pairRow al1 al2).operonCell ≠ "COMPLETE" →
        2 ≤ (pairStxType al1 al2 false).data.length →
        (pairRow al1 al2).stxTypeCell = stxS ++ eraseFrom1 (pairStxType al1 al2 false)) := by
  rw [pairRow_stxTypeCell, pairRow_operonCell]
  by_cases h1 : operonTypeStr al1 al2 = "COMPLETE"
  · rw [if_neg (fun hc => hc.1 h1)]
    exact ⟨⟨fun _ => Or.inl h1, fun _ => rfl⟩, fun hc => absurd h1 hc⟩
  · by_cases h2 : 2 ≤ (pairStxType al1 al2 false).data.length
    · rw [if_pos ⟨h1, h2⟩]
      refine ⟨⟨fun he => ?_, fun hd => ?_⟩, fun _ _ => rfl⟩
      · exfalso
        apply eraseFrom1_ne (pairStxType al1 al2 false) h2
        rw [String.ext_iff] at he ⊢
        simpa using he
      · rcases hd with hd | hd
        · exact absurd hd h1
        · omega
    · rw [if_neg (by tauto)]
      exact ⟨⟨fun _ => Or.inr (Nat.lt_of_not_le h2), fun _ => rfl⟩,
             fun _ hc => absurd hc h2⟩

/-- C1 witness: the truncation law applied to the concrete COMPLETE_NOVEL
    pair. -/
theorem C1_type_truncation_witness :
    ((pairRow c1A c1B).operonCell ≠ "COMPLETE"
     ∧ 2 ≤ (pairStxType c1A c1B false).data.length)
    ∧ (pairRow c1A c1B).stxTypeCell = stxS ++ eraseFrom1 (pairStxType c1A c1B false) :=
  ⟨by decide, (C1_type_truncation_vs_status c1A c1B).2 (by decide) (by decide)⟩

/-! ### Claim C2: class-2 sub-typing is a pure function of three residues -/

/-- C2: for a paired operon whose two hits share stx class "2", the
    resolved type equals the spec's residue table applied to exactly the
    three fixed reference-frame positions — 0-based index 312 and 318 of
    the A-frame projection onto 319+1 columns and index 34 of the B-frame
    projection onto 89+1 columns (1-based columns 313, 319, 35). -/
theorem C2_class2_pure_residue_function (al1 al2 : BlastAlignment)
    (h1 : al1.stxClass = "2") (h2 : al2.stxClass = "2") :
    pairStxType al1 al2 false =
      stx2SubtypeSpec (((pairA al1 al2).refMap (319 + 1)).getD 312 '-')
        (((pairA al1 al2).refMap (319 + 1)).getD 318 '-')
        (((pairB al1 al2).refMap (89 + 1)).getD 34 '-') := by
  rw [pairStxType]
  rw [if_neg (by rw [h1, h2]; simp), if_neg (by rw [h1]; simp)]
  simp only [stx2SubtypeSpec]
  split_ifs <;> simp_all

/-- C2 witness: a concrete class-2 pair with A-frame residues F at column
    313 and K at column 319 and B-frame residue D at column 35 resolves to
    "2a" through the residue table. -/
theorem C2_class2_witness :
    c2A.stxClass = "2" ∧ c2B.stxClass = "2" ∧ pairStxType c2A c2B false = "2a" := by
  refine ⟨rfl, rfl, ?_⟩
  rw [C2_class2_pure_residue_function c2A c2B rfl rfl]
  decide

/-! ### Claim C8: parser failure conditions -/

/-- C8 counterexample: a tokenized line satisfying every condition the
    claim names for success — subject id decodes to the 6-character family
    code `stxA1a`, the aligned sequences are non-empty and of equal length,
    target start differs from target end, and all lengths are positive —
    yet the constructor rejects it, because its 1-based reference start is
    0 (`QC_ASSERT (refStart >= 1)`, stxtyper.cpp:169). -/
theorem C8_parse_zero_refStart_cex :
    parseHit c8F = Except.error ParseError.malformedRecord
    ∧ sseqidSplit c8F.sseqid = some ("ACC123.1", "stxA1a")
    ∧ c8F.targetSeq.data.length = c8F.refSeq.data.length
    ∧ c8F.targetStart ≠ c8F.targetEnd
    ∧ 0 < c8F.targetLen ∧ 0 < c8F.refLen
    ∧ 0 < c8F.targetSeq.data.length ∧ 0 < c8F.refSeq.data.length
    ∧ c8F.refStart < c8F.refEnd :=
  ⟨rfl, by decide⟩

set_option maxHeartbeats 2000000 in
/-- C8 (amended): parsing a tokenized alignment line fails exactly when the
    target aligned sequence is empty, the subject id does not split at two
    delimiters (this case alone raising the database error), the family
    code is not 6 characters starting with `stx`, the aligned sequences
    differ in length, the reference span is empty, the target start equals
    the target end, or a 1-based input coordinate (reference start, or the
    smaller target coordinate) is zero — and otherwise yields exactly one
    AlignmentHit. -/
theorem C8_parse_failure_conditions (f : BlastFields) :
    ((∃ al, parseHit f = Except.ok al) ↔ parseOkCond f)
    ∧ (parseHit f = Except.error ParseError.malformedDatabase ↔
        (f.targetSeq ≠ "" ∧ sseqidSplit f.sseqid = none)) := by
  unfold parseHit parseOkCond
  by_cases h0 : f.targetSeq = ""
  · simp [h0]
  · rw [if_neg h0]
    rcases hs : sseqidSplit f.sseqid with _ | ⟨acc, famId⟩
    · simp [h0, hs]
    · simp only [hs]
      split_ifs with e1 e2 e3 e4 e5 e6 e7
      all_goals simp_all [h0, hs]

/-! ### Claim C6: idempotence of the hit-level redundancy filter

The filter runs on the `sameTypeLess`-sorted hit list.  The proof first
shows that on a sorted list of geometrically valid hits the sliding-window
filter `hitFilterGo` computes the same output as the window-free reference
filter `specGo` (a hit is suppressed exactly when some earlier hit of its
contig/strand/class/subunit group contains it with a diff-score that is not
worse), and then that `specGo` is a no-op on its own output. -/

theorem sameTypeLess_false_iff {a b : BlastAlignment} :
    sameTypeLessB b a = false ↔ fullKey a ≤ fullKey b := by
  simp [sameTypeLessB, not_lt]

theorem key_unreported {a b : BlastAlignment} (h : fullKey a ≤ fullKey b)
    (hb : b.reported = false) : a.reported = false := by
  simp only [fullKey] at h
  rcases (Prod.Lex.le_iff _ _).1 h with h1 | ⟨h1, _⟩
  · rw [hb] at h1
    simp [Bool.lt_iff] at h1
  · simpa [hb] using h1

theorem lexPeel {α β : Type} [LinearOrder α] [LE β] {x y : α × β}
    (h : toLex x ≤ toLex y) (he : x.1 = y.1) : x.2 ≤ y.2 := by
  rcases (Prod.Lex.le_iff x y).1 h with h1 | ⟨_, h2⟩
  · exact absurd he (ne_of_lt h1)
  · exact h2

theorem lexFst {α β : Type} [LinearOrder α] [LE β] {x y : α × β}
    (h : toLex x ≤ toLex y) : x.1 ≤ y.1 := by
  rcases (Prod.Lex.le_iff x y).1 h with h1 | ⟨h1, _⟩
  · exact le_of_lt h1
  · exact le_of_eq h1

theorem key_gkey_le {a b : BlastAlignment} (h : fullKey a ≤ fullKey b)
    (ha : a.reported = false) (hb : b.reported = false) : gkey a ≤ gkey b := by
  simp only [fullKey] at h
  have h1 := lexPeel h (show a.reported = b.reported by rw [ha, hb])
  simp only [gkey]
  rcases (Prod.Lex.le_iff _ _).1 h1 with hn | ⟨hn, h2⟩
  · exact (Prod.Lex.le_iff _ _).2 (Or.inl hn)
  · refine (Prod.Lex.le_iff _ _).2 (Or.inr ⟨hn, ?_⟩)
    rcases (Prod.Lex.le_iff _ _).1 h2 with hsd | ⟨hsd, h3⟩
    · exact (Prod.Lex.le_iff _ _).2 (Or.inl hsd)
    · refine (Prod.Lex.le_iff _ _).2 (Or.inr ⟨hsd, ?_⟩)
      rcases (Prod.Lex.le_iff _ _).1 h3 with hc | ⟨hc, h4⟩
      · exact (Prod.Lex.le_iff _ _).2 (Or.inl hc)
      · exact (Prod.Lex.le_iff _ _).2 (Or.inr ⟨hc, lexFst h4⟩)

theorem sameGroupB_iff_gkey {p h : BlastAlignment} :
    sameGroupB p h = true ↔ gkey p = gkey h := by
  simp only [sameGroupB, Bool.and_eq_true, decide_eq_true_eq, gkey, toLex_inj,
    Prod.mk.injEq, String.ext_iff]
  tauto

theorem key_start_le {a b : BlastAlignment} (h : fullKey a ≤ fullKey b)
    (ha : a.reported = false) (hb : b.reported = false)
    (hg : gkey a = gkey b) : a.targetStart ≤ b.targetStart := by
  simp only [gkey, toLex_inj, Prod.mk.injEq] at hg
  obtain ⟨e1, e2, e3, e4⟩ := hg
  simp only [fullKey] at h
  have h1 := lexPeel h (show a.reported = b.reported by rw [ha, hb])
  have h2 := lexPeel h1 e1
  have h3 := lexPeel h2 e2
  have h4 := lexPeel h3 e3
  have h5 := lexPeel h4 e4
  exact lexFst h5

/-- Transfer of a failed window predicate along the sorted order: if the
    window already moved past `p` at hit `h`, it stays past `p` for every
    later unreported hit. -/
theorem windowPred_transfer {p h h' : BlastAlignment}
    (hph : fullKey p ≤ fullKey h) (hhh : fullKey h ≤ fullKey h')
    (hh : h.reported = false) (hh' : h'.reported = false)
    (hw : windowPredB p h = false) : windowPredB p h' = false := by
  by_cases hg : sameGroupB p h' = true
  · have hgk : gkey p = gkey h' := sameGroupB_iff_gkey.1 hg
    have hp : p.reported = false := key_unreported hph hh
    have g1 : gkey p ≤ gkey h := key_gkey_le hph hp hh
    have g2 : gkey h ≤ gkey h' := key_gkey_le hhh hh hh'
    have hgh : gkey p = gkey h := le_antisymm g1 (by rw [hgk]; exact g2)
    have hsg : sameGroupB p h = true := sameGroupB_iff_gkey.2 hgh
    have hov : p.targetEnd ≤ h.targetStart := by
      by_contra hno
      push_neg at hno
      rw [windowPredB, hsg, Bool.true_and] at hw
      simp [hno] at hw
    have hgh' : gkey h = gkey h' := by rw [← hgh]; exact hgk
    have hst : h.targetStart ≤ h'.targetStart := key_start_le hhh hh hh' hgh'
    rw [windowPredB, hg, Bool.true_and]
    simp only [decide_eq_false_iff_not]
    omega
  · rw [windowPredB]
    have : sameGroupB p h' = false := by
      revert hg; cases sameGroupB p h' <;> simp
    rw [this, Bool.false_and]

theorem dropWhile_head_false {q : BlastAlignment → Bool} :
    ∀ (l : List BlastAlignment) {w₀ : BlastAlignment} {w' : List BlastAlignment},
      l.dropWhile q = w₀ :: w' → q w₀ = false := by
  intro l
  induction l with
  | nil => intro w₀ w' h; simp [List.dropWhile] at h
  | cons a t ih =>
    intro w₀ w' h
    rw [List.dropWhile_cons] at h
    by_cases hq : q a = true
    · rw [if_pos hq] at h
      exact ih h
    · rw [if_neg hq] at h
      injection h with h1 _
      rw [← h1]
      revert hq; cases q a <;> simp

theorem hitFilterGo_eq_specGo :
    ∀ (rest retired window : List BlastAlignment),
      (retired ++ window ++ rest).Pairwise (fun a b => sameTypeLessB b a = false) →
      (∀ x ∈ retired ++ window ++ rest, x.targetStart < x.targetEnd) →
      (∀ p ∈ retired, ∀ x ∈ rest, x.reported = false → windowPredB p x = false) →
      hitFilterGo window rest = specGo (retired ++ window) rest := by
  intro rest
  induction rest with
  | nil => intro retired window _ _ _; rfl
  | cons h t ih =>
    intro retired window hpw hval hinv
    by_cases hrept : h.reported = true
    · show (if h.reported then [] else _) = (if h.reported then [] else _)
      rw [hrept]
      simp
    · have hrep : h.reported = false := by revert hrept; cases h.reported <;> simp
      have hsplit : window.takeWhile (fun p => !windowPredB p h)
          ++ window.dropWhile (fun p => !windowPredB p h) = window :=
        List.takeWhile_append_dropWhile _ _
      have hcross : ∀ p ∈ retired ++ window, ∀ y ∈ h :: t, sameTypeLessB y p = false :=
        (List.pairwise_append.1 hpw).2.2
      have hHT : ∀ y ∈ t, sameTypeLessB y h = false :=
        (List.pairwise_cons.1 (List.pairwise_append.1 hpw).2.1).1
      have hWpairs : window.Pairwise (fun a b => sameTypeLessB b a = false) :=
        (List.pairwise_append.1 (List.pairwise_append.1 hpw).1).2.1
      have hcontr : ∀ p, windowPredB p h = false → sameGroupB p h = true →
          suppressByB h p = true → False := by
        intro p hwp hg hsup
        rw [windowPredB, hg, Bool.true_and] at hwp
        have hto : ¬ h.targetStart < p.targetEnd := by simpa using hwp
        rw [suppressByB, Bool.and_eq_true] at hsup
        have hin := hsup.1
        rw [BlastAlignment.insideEq, Bool.and_eq_true] at hin
        have h1 : h.targetEnd ≤ p.targetEnd := by simpa using hin.2
        have hv : h.targetStart < h.targetEnd := hval h (by simp)
        omega
      have hcond : ((window.dropWhile (fun p => !windowPredB p h)).any
            fun p => suppressByB h p)
          = ((retired ++ window).any fun p => sameGroupB p h && suppressByB h p) := by
        rw [Bool.eq_iff_iff, List.any_eq_true, List.any_eq_true]
        constructor
        · rintro ⟨p, hpmem, hsup⟩
          have hwsub : List.Sublist (window.dropWhile (fun p => !windowPredB p h)) window :=
            List.dropWhile_sublist _
          have hpwin : p ∈ window := hwsub.mem hpmem
          refine ⟨p, List.mem_append.2 (Or.inr hpwin), ?_⟩
          cases hwc : window.dropWhile (fun p => !windowPredB p h) with
          | nil => rw [hwc] at hpmem; cases hpmem
          | cons w₀ w'' =>
            have hq : (fun p => !windowPredB p h) w₀ = false :=
              dropWhile_head_false window hwc
            have hw0 : windowPredB w₀ h = true := by simpa using hq
            have hg0 : sameGroupB w₀ h = true := by
              rw [windowPredB, Bool.and_eq_true] at hw0
              exact hw0.1
            rw [hwc] at hpmem
            rcases List.mem_cons.1 hpmem with he | hpmem'
            · subst he
              rw [hg0, hsup]
              rfl
            · have hwPair : (w₀ :: w'').Pairwise (fun a b => sameTypeLessB b a = false) := by
                rw [← hwc]
                exact hWpairs.sublist hwsub
              have h1 : fullKey w₀ ≤ fullKey p :=
                sameTypeLess_false_iff.1 ((List.pairwise_cons.1 hwPair).1 p hpmem')
              have h2 : fullKey p ≤ fullKey h :=
                sameTypeLess_false_iff.1
                  (hcross p (List.mem_append.2 (Or.inr hpwin)) h (List.mem_cons_self _ _))
              have hp_unrep : p.reported = false := key_unreported h2 hrep
              have hw0_unrep : w₀.reported = false := key_unreported h1 hp_unrep
              have hg0k : gkey w₀ = gkey h := sameGroupB_iff_gkey.1 hg0
              have g1 : gkey w₀ ≤ gkey p := key_gkey_le h1 hw0_unrep hp_unrep
              have g2 : gkey p ≤ gkey h := key_gkey_le h2 hp_unrep hrep
              have hpk : gkey p = gkey h := le_antisymm g2 (by rw [← hg0k]; exact g1)
              rw [sameGroupB_iff_gkey.2 hpk, hsup]
              rfl
        · rintro ⟨p, hpmem, hcond2⟩
          rw [Bool.and_eq_true] at hcond2
          obtain ⟨hg, hsup⟩ := hcond2
          rcases List.mem_append.1 hpmem with hpr | hpwinmem
          · exact (hcontr p (hinv p hpr h (List.mem_cons_self _ _) hrep) hg hsup).elim
          · have : p ∈ window.takeWhile (fun p => !windowPredB p h)
                ∨ p ∈ window.dropWhile (fun p => !windowPredB p h) := by
              rw [← hsplit] at hpwinmem
              exact List.mem_append.1 hpwinmem
            rcases this with hpd | hpw2
            · have hq := List.mem_takeWhile_imp hpd
              have hwp : windowPredB p h = false := by simpa using hq
              exact (hcontr p hwp hg hsup).elim
            · exact ⟨p, hpw2, hsup⟩
      have hplist : (retired ++ window.takeWhile (fun p => !windowPredB p h))
            ++ ((window.dropWhile (fun p => !windowPredB p h)) ++ [h]) ++ t
          = (retired ++ window) ++ (h :: t) := by
        conv_rhs => rw [← hsplit]
        simp only [List.append_assoc, List.singleton_append]
      have hpw2 := hplist.symm ▸ hpw
      have hval2 : ∀ x ∈ (retired ++ window.takeWhile (fun p => !windowPredB p h))
            ++ ((window.dropWhile (fun p => !windowPredB p h)) ++ [h]) ++ t,
          x.targetStart < x.targetEnd := fun x hx => hval x (hplist ▸ hx)
      have hinv2 : ∀ p ∈ retired ++ window.takeWhile (fun p => !windowPredB p h),
          ∀ x ∈ t, x.reported = false → windowPredB p x = false := by
        intro p hp x hx hxrep
        rcases List.mem_append.1 hp with hp' | hp'
        · exact hinv p hp' x (List.mem_cons_of_mem _ hx) hxrep
        · have hq := List.mem_takeWhile_imp hp'
          have hwp : windowPredB p h = false := by simpa using hq
          have hpwin : p ∈ window := by
            rw [← hsplit]
            exact List.mem_append.2 (Or.inl hp')
          have hph : fullKey p ≤ fullKey h :=
            sameTypeLess_false_iff.1
              (hcross p (List.mem_append.2 (Or.inr hpwin)) h (List.mem_cons_self _ _))
          have hhx : fullKey h ≤ fullKey x := sameTypeLess_false_iff.1 (hHT x hx)
          exact windowPred_transfer hph hhx hrep hxrep hwp
      have hih := ih (retired ++ window.takeWhile (fun p => !windowPredB p h))
        ((window.dropWhile (fun p => !windowPredB p h)) ++ [h]) hpw2 hval2 hinv2
      have hseen : (retired ++ window.takeWhile (fun p => !windowPredB p h))
            ++ ((window.dropWhile (fun p => !windowPredB p h)) ++ [h])
          = (retired ++ window) ++ [h] := by
        conv_rhs => rw [← hsplit]
        simp only [List.append_assoc]
      rw [hseen] at hih
      show (if h.reported then [] else
        if (window.dropWhile (fun p => !windowPredB p h)).any (fun p => suppressByB h p) then
          hitFilterGo ((window.dropWhile (fun p => !windowPredB p h)) ++ [h]) t
        else h :: hitFilterGo ((window.dropWhile (fun p => !windowPredB p h)) ++ [h]) t)
        = (if h.reported then [] else
        if (retired ++ window).any (fun p => sameGroupB p h && suppressByB h p) then
          specGo ((retired ++ window) ++ [h]) t
        else h :: specGo ((retired ++ window) ++ [h]) t)
      rw [hrep, hcond, hih]

theorem specGo_sublist :
    ∀ (l seen : List BlastAlignment), List.Sublist (specGo seen l) l := by
  intro l
  induction l with
  | nil => intro seen; exact List.Sublist.refl _
  | cons h t ih =>
    intro seen
    show List.Sublist (if h.reported then [] else
      if seen.any (fun p => sameGroupB p h && suppressByB h p) then specGo (seen ++ [h]) t
      else h :: specGo (seen ++ [h]) t) (h :: t)
    by_cases h1 : h.reported
    · simp [h1]
    · rw [if_neg h1]
      by_cases h2 : (seen.any fun p => sameGroupB p h && suppressByB h p) = true
      · rw [if_pos h2]
        exact (ih (seen ++ [h])).cons h
      · rw [if_neg h2]
        exact (ih (seen ++ [h])).cons₂ h

theorem specGo_unreported :
    ∀ (l seen : List BlastAlignment) (x : BlastAlignment),
      x ∈ specGo seen l → x.reported = false := by
  intro l
  induction l with
  | nil => intro seen x hx; cases hx
  | cons h t ih =>
    intro seen x hx
    revert hx
    show x ∈ (if h.reported then [] else
      if seen.any (fun p => sameGroupB p h && suppressByB h p) then specGo (seen ++ [h]) t
      else h :: specGo (seen ++ [h]) t) → x.reported = false
    by_cases h1 : h.reported
    · intro hx; rw [if_pos h1] at hx; cases hx
    · rw [if_neg h1]
      by_cases h2 : (seen.any fun p => sameGroupB p h && suppressByB h p) = true
      · rw [if_pos h2]; exact ih (seen ++ [h]) x
      · rw [if_neg h2]
        intro hx
        rcases List.mem_cons.1 hx with he | hx'
        · rw [he]
          revert h1; cases h.reported <;> simp
        · exact ih (seen ++ [h]) x hx'

theorem bool_eq_false {b : Bool} (h : ¬ b = true) : b = false := by
  cases b
  · rfl
  · exact absurd rfl h

theorem specGo_seen_clear :
    ∀ (l seen : List BlastAlignment) (x : BlastAlignment),
      x ∈ specGo seen l → ∀ p ∈ seen, (sameGroupB p x && suppressByB x p) = false := by
  intro l
  induction l with
  | nil => intro seen x hx; cases hx
  | cons h t ih =>
    intro seen x hx
    revert hx
    show x ∈ (if h.reported then [] else
      if seen.any (fun p => sameGroupB p h && suppressByB h p) then specGo (seen ++ [h]) t
      else h :: specGo (seen ++ [h]) t) → _
    by_cases h1 : h.reported
    · intro hx; rw [if_pos h1] at hx; cases hx
    · rw [if_neg h1]
      by_cases h2 : (seen.any fun p => sameGroupB p h && suppressByB h p) = true
      · rw [if_pos h2]
        intro hx p hp
        exact ih (seen ++ [h]) x hx p (List.mem_append.2 (Or.inl hp))
      · rw [if_neg h2]
        intro hx p hp
        rcases List.mem_cons.1 hx with he | hx'
        · rw [he]
          have hany := bool_eq_false h2
          have hp2 := List.any_eq_false.1 hany p hp
          exact bool_eq_false hp2
        · exact ih (seen ++ [h]) x hx' p (List.mem_append.2 (Or.inl hp))

theorem specGo_pairwise_nonDom :
    ∀ (l seen : List BlastAlignment),
      (specGo seen l).Pairwise (fun a b => (sameGroupB a b && suppressByB b a) = false) := by
  intro l
  induction l with
  | nil => intro seen; exact List.Pairwise.nil
  | cons h t ih =>
    intro seen
    show ((if h.reported then [] else
      if seen.any (fun p => sameGroupB p h && suppressByB h p) then specGo (seen ++ [h]) t
      else h :: specGo (seen ++ [h]) t)).Pairwise _
    by_cases h1 : h.reported
    · rw [if_pos h1]; exact List.Pairwise.nil
    · rw [if_neg h1]
      by_cases h2 : (seen.any fun p => sameGroupB p h && suppressByB h p) = true
      · rw [if_pos h2]; exact ih (seen ++ [h])
      · rw [if_neg h2]
        refine List.Pairwise.cons ?_ (ih (seen ++ [h]))
        intro b hb
        exact specGo_seen_clear t (seen ++ [h]) b hb h
          (List.mem_append.2 (Or.inr (List.mem_singleton.2 rfl)))

theorem specGo_noop :
    ∀ (l seen : List BlastAlignment),
      (∀ x ∈ l, x.reported = false) →
      (∀ p ∈ seen, ∀ x ∈ l, (sameGroupB p x && suppressByB x p) = false) →
      l.Pairwise (fun a b => (sameGroupB a b && suppressByB b a) = false) →
      specGo seen l = l := by
  intro l
  induction l with
  | nil => intro seen _ _ _; rfl
  | cons h t ih =>
    intro seen hunrep hclear hpw
    show (if h.reported then [] else
      if seen.any (fun p => sameGroupB p h && suppressByB h p) then specGo (seen ++ [h]) t
      else h :: specGo (seen ++ [h]) t) = h :: t
    rw [if_neg (by rw [hunrep h (List.mem_cons_self _ _)]; exact Bool.false_ne_true)]
    rw [if_neg (by
      rw [List.any_eq_false.2 (fun p hp => ?_)]
      · exact Bool.false_ne_true
      · have := hclear p hp h (List.mem_cons_self _ _)
        simp [this])]
    rw [ih (seen ++ [h]) (fun x hx => hunrep x (List.mem_cons_of_mem _ hx))
      (fun p hp x hx => ?_) (List.pairwise_cons.1 hpw).2]
    rcases List.mem_append.1 hp with hp' | hp'
    · exact hclear p hp' x (List.mem_cons_of_mem _ hx)
    · rw [List.mem_singleton.1 hp']
      exact (List.pairwise_cons.1 hpw).1 x hx

/-- C6: the hit-level redundancy filter is idempotent — on a hit list
    sorted by `sameTypeLess` (as the pipeline sorts it,
    stxtyper.cpp:825) whose hits satisfy the qc geometry
    `targetStart < targetEnd`, running the filter on its own output
    suppresses nothing further. -/
theorem C6_hit_filter_idempotent (hs : List BlastAlignment)
    (hsort : hs.Pairwise (fun a b => sameTypeLessB b a = false))
    (hval : ∀ x ∈ hs, x.targetStart < x.targetEnd) :
    hitFilter (hitFilter hs) = hitFilter hs := by
  have h1 : hitFilter hs = specGo [] hs := by
    have := hitFilterGo_eq_specGo hs [] [] (by simpa using hsort) (by simpa using hval)
      (by simp)
    simpa [hitFilter] using this
  have hsub : List.Sublist (hitFilter hs) hs := by
    rw [h1]; exact specGo_sublist hs []
  have hsort2 : (hitFilter hs).Pairwise (fun a b => sameTypeLessB b a = false) :=
    hsort.sublist hsub
  have hval2 : ∀ x ∈ hitFilter hs, x.targetStart < x.targetEnd :=
    fun x hx => hval x (hsub.mem hx)
  have h2 : hitFilter (hitFilter hs) = specGo [] (hitFilter hs) := by
    have := hitFilterGo_eq_specGo (hitFilter hs) [] [] (by simpa using hsort2)
      (by simpa using hval2) (by simp)
    simpa [hitFilter] using this
  rw [h2]
  exact specGo_noop (hitFilter hs) []
    (fun x hx => by rw [h1] at hx; exact specGo_unreported hs [] x hx)
    (by simp)
    (by rw [h1]; exact specGo_pairwise_nonDom hs [])

/-- C6 witness: the idempotence law at a concrete sorted list where the
    second hit is suppressed (contained in the first with a worse diff). -/
theorem C6_hit_filter_idempotent_witness :
    ([c6W1, c6W2].Pairwise (fun a b => sameTypeLessB b a = false)
     ∧ (∀ x ∈ [c6W1, c6W2], x.targetStart < x.targetEnd))
    ∧ hitFilter (hitFilter [c6W1, c6W2]) = hitFilter [c6W1, c6W2]
    ∧ hitFilter [c6W1, c6W2] = [c6W1] :=
  ⟨⟨by decide, by decide⟩,
   C6_hit_filter_idempotent [c6W1, c6W2] (by decide) (by decide),
   by decide⟩

/-! ### Claim C9: the report order is a total, deterministic order -/

theorem reportKey_eq_of_ties {a b : Operon} (hab : reportLessB a b = false)
    (hba : reportLessB b a = false) : reportKey a = reportKey b := by
  have h1 : ¬ reportKey a < reportKey b := by
    simpa [reportLessB] using hab
  have h2 : ¬ reportKey b < reportKey a := by
    simpa [reportLessB] using hba
  exact le_antisymm (not_lt.1 h2) (not_lt.1 h1)

theorem report_sorted_unique :
    ∀ l₁ l₂ : List Operon,
      l₁.Pairwise (fun a b => reportLessB b a = false) →
      l₂.Pairwise (fun a b => reportLessB b a = false) →
      (∀ k, l₁.filter (fun op => decide (reportKey op = k))
          = l₂.filter (fun op => decide (reportKey op = k))) →
      l₁ = l₂ := by
  intro l₁
  induction l₁ with
  | nil =>
    intro l₂ _ _ hf
    cases l₂ with
    | nil => rfl
    | cons b t₂ =>
      exfalso
      have h := hf (reportKey b)
      simp at h
  | cons a t₁ ih =>
    intro l₂ h1 h2 hf
    cases l₂ with
    | nil =>
      exfalso
      have h := hf (reportKey a)
      simp at h
    | cons b t₂ =>
      have ha2 : a ∈ b :: t₂ := by
        have h := hf (reportKey a)
        have hm : a ∈ (b :: t₂).filter (fun op => decide (reportKey op = reportKey a)) := by
          rw [← h]; simp
        exact List.mem_of_mem_filter hm
      have hb1 : b ∈ a :: t₁ := by
        have h := hf (reportKey b)
        have hm : b ∈ (a :: t₁).filter (fun op => decide (reportKey op = reportKey b)) := by
          rw [h]; simp
        exact List.mem_of_mem_filter hm
      have hk : reportKey a = reportKey b := by
        rcases List.mem_cons.1 ha2 with he | ha2'
        · rw [he]
        · rcases List.mem_cons.1 hb1 with he | hb1'
          · rw [he]
          · have hab : reportLessB a b = false := (List.pairwise_cons.1 h2).1 a ha2'
            have hba : reportLessB b a = false := (List.pairwise_cons.1 h1).1 b hb1'
            exact reportKey_eq_of_ties hab hba
      have hfa := hf (reportKey a)
      rw [List.filter_cons, List.filter_cons, if_pos (by simp), if_pos (by simp [hk])] at hfa
      injection hfa with hhead htail
      subst hhead
      have htl : t₁ = t₂ := by
        apply ih t₂ (List.pairwise_cons.1 h1).2 (List.pairwise_cons.1 h2).2
        intro k
        have h := hf k
        by_cases hka : reportKey a = k
        · rw [List.filter_cons, List.filter_cons, if_pos (by simp [hka]),
            if_pos (by simp [hka])] at h
          injection h
        · rw [List.filter_cons, List.filter_cons, if_neg (by simp [hka]),
            if_neg (by simp [hka])] at h
          exact h
      rw [htl]

/-- C9: the final sort comparator is exactly the lexicographic comparison
    of the seven-field report key (contig, target start, target end, strand
    descending, first reference accession, has-second-subunit, second
    reference accession), so comparator-ties coincide with key equality;
    and any two outputs that are sorted by it and list the operons of every
    key class in the same order (as any deterministic/stable sort of the
    same input does) are identical — re-runs on identical input produce the
    report rows in identical order. -/
theorem C9_report_order_deterministic :
    (∀ a b : Operon, reportLessB a b = false → reportLessB b a = false →
       reportKey a = reportKey b)
    ∧ (∀ l₁ l₂ : List Operon,
         l₁.Pairwise (fun a b => reportLessB b a = false) →
         l₂.Pairwise (fun a b => reportLessB b a = false) →
         (∀ k, l₁.filter (fun op => decide (reportKey op = k))
             = l₂.filter (fun op => decide (reportKey op = k))) →
         l₁ = l₂) :=
  ⟨fun _ _ hab hba => reportKey_eq_of_ties hab hba, report_sorted_unique⟩

/-- C9 witness: the tie-to-key-equality law at a reflexive tie, and the
    uniqueness law at a concrete sorted two-operon report. -/
theorem C9_report_order_witness :
    (reportLessB c9Op1 c9Op1 = false ∧ reportKey c9Op1 = reportKey c9Op1)
    ∧ ([c9Op1, c9Op2].Pairwise (fun a b => reportLessB b a = false)
       ∧ [c9Op1, c9Op2] = [c9Op1, c9Op2]) :=
  ⟨⟨by decide, C9_report_order_deterministic.1 c9Op1 c9Op1 (by decide) (by decide)⟩,
   ⟨by decide, C9_report_order_deterministic.2 [c9Op1, c9Op2] [c9Op1, c9Op2]
      (by decide) (by decide) (fun _ => rfl)⟩⟩

end Stx
